import Mathlib

/-!
Verification development for the papermerge-core document ingestion pipeline
(`papermerge/core/import_pipeline.py` and `papermerge/core/importers/base.py`).

The Python code is shallowly embedded: `DefaultPipeline.__init__` /
`check_mimetype` become `defaultConstruct`, `DefaultPipeline.apply` becomes
`applyPipeline` (split into `resolveStep`, `branchStep`, `finishStep`
mirroring the three sections of the Python method), `go_through_pipelines`
becomes `runStages` / `goThroughPipelines`, and `BaseImporter.create_document`
becomes `createDocumentImporter`.  External collaborators (Django ORM,
storage backend, celery task queue, libmagic, page counting) are modelled as
an explicit environment `Env`; every observable side effect is recorded in an
ordered `Event` trace.
-/

/-- Processor-origin constant, `REST_API` in the source. -/
def REST_API : String := "REST_API"

/-- Processor-origin constant, `WEB` in the source. -/
def WEB : String := "WEB"

/-- Processor-origin constant, `IMAP` in the source. -/
def IMAP : String := "IMAP"

/-- Processor-origin constant, `LOCAL` in the source. -/
def LOCAL : String := "LOCAL"

/-- The payload argument of `DefaultPipeline.__init__`: `None`, raw `bytes`,
a `TemporaryUploadedFile`, a `_TemporaryFileWrapper`, or anything else
(which the source rejects with `TypeError`). -/
inductive PayloadV
  | pynone
  | bytes (data : List Nat)
  | tempUploaded (path : String)
  | tempWrapper (path : String)
  | other
  deriving DecidableEq, Repr

/-- A row of the `User` table: the fields the pipeline reads
(`id`, `username`, `is_superuser`, `preferences['ocr__OCR_Language']`). -/
structure UserRec where
  id : Nat
  username : String
  is_superuser : Bool
  pref_ocr_lang : String
  deriving DecidableEq, Repr

/-- The `user` value threaded through `apply` / `get_user_properties`:
Python `None`, a username string, or a resolved `User` object. -/
inductive UserArg
  | pynone
  | byName (s : String)
  | user (u : UserRec)
  deriving DecidableEq, Repr

/-- The `Document` model fields the ingestion core reads or writes. -/
structure Doc where
  id : Nat
  title : String
  file_name : String
  size : Nat
  page_count : Nat
  lang : Option String
  version : Nat
  owner : UserArg
  parent : Option Nat
  notes : Option String
  deriving DecidableEq, Repr

/-- A Python value stored in one of the threaded kwargs dictionaries. -/
inductive PyVal
  | int (n : Nat)
  | str (s : String)
  | bool (b : Bool)
  | pynone
  | payload (p : PayloadV)
  | doc (d : Doc)
  | user (u : UserRec)
  deriving DecidableEq, Repr

/-- A kwargs dictionary: association list, later-bound keys first
(so `{**a, **b}` is `b ++ a` and lookup finds `b`'s binding). -/
abbrev KwMap := List (String × PyVal)

/-- Dictionary lookup. -/
def lookupKw (m : KwMap) (k : String) : Option PyVal :=
  m.lookup k

/-- Observable side effects, in program order. -/
inductive Event
  | inboxGetOrCreate (userId : Nat)
  | docCreated (d : Doc)
  | docSaved (d : Doc)
  | pagesRecreated
  | pagesCreated
  | copy (src dst : String)
  | closePayload
  | upload (dst : String)
  | dispatchDoc (kw : KwMap)
  | dispatchPage (kw : KwMap)
  | ocrDocumentCall (docId pageCount : Nat)
  deriving DecidableEq, Repr

/-- Exceptions raised by the embedded code.  `typeError` doubles as the
spec's `MalformedInit`, `fileTypeNotSupported` as `IncompatiblePayload`,
`validationError` as `DocumentValidationError`, `storageIOError` as storage
copy failure; `unboundLocal` is Python's `UnboundLocalError` (reading the
never-assigned local `doc`), `attributeError` an attribute access on an
unresolved user. -/
inductive PyErr
  | typeError
  | fileTypeNotSupported
  | validationError
  | storageIOError
  | unboundLocal
  | attributeError
  deriving DecidableEq, Repr

/-- The environment: process configuration plus the behaviour of the
external collaborators (database, storage, classifier, page counter). -/
structure Env where
  supported : List String
  mimeOf : String → String
  pagecountOf : String → Nat
  sizeOf : String → Nat
  tempPath : String
  users : List UserRec
  inboxId : Nat → Nat
  createOk : Bool
  recreateOk : Bool
  fullCleanOk : Bool
  copyOk : Bool
  uploadNs : Option String
  nextDocId : Nat

/-- State of a constructed `DefaultPipeline` instance after `__init__`. -/
structure PipeState where
  processor : String
  doc : Option Doc
  path : String
  payload : PayloadV
  deriving DecidableEq, Repr

/-- The keyword arguments of `DefaultPipeline.apply`, with the source's
defaults. -/
structure ApplyArgs where
  user : UserArg := .pynone
  parent : Option Nat := none
  lang : Option String := none
  notes : Option String := none
  name : Option String := none
  skip_ocr : Bool := false
  apply_async : Bool := false
  create_document : Bool := true
  deriving DecidableEq, Repr

/-- `os.path.basename`. -/
def basename (p : String) : String :=
  (p.splitOn "/").getLastD p

/-- `doc.path().url()`: the canonical storage URL of a document version.
The pipeline only passes this string to the storage collaborator. -/
def docUrl (d : Doc) : String :=
  "docs/" ++ toString d.id ++ "/v" ++ toString d.version

/-- `user.id` on a threaded user value; `none` models `AttributeError`. -/
def userIdOf : UserArg → Option Nat
  | .user u => some u.id
  | _ => none

/-- `lang` as the Python value placed into task kwargs (may be `None`). -/
def optStrVal : Option String → PyVal
  | some s => .str s
  | none => .pynone

/-- User resolution of `DefaultPipeline.get_user_properties`:
`None` resolves to the first superuser, a string to the first user with
that username; `none` means the subsequent attribute access raises. -/
def resolveUser (users : List UserRec) : UserArg → Option UserRec
  | .pynone => (users.filter (fun u => u.is_superuser)).head?
  | .byName s => (users.filter (fun u => u.username == s)).head?
  | .user u => some u

/-- Lines 210-217 of `apply`: when `parent is None`, call
`get_user_properties` (owner resolution, language from the owner's
preferences, inbox `get_or_create`) and land in the inbox for
`REST_API`/`LOCAL`/`IMAP`; otherwise `user`, `lang`, `parent` pass through
unchanged. -/
def resolveStep (env : Env) (ps : PipeState) (a : ApplyArgs) :
    Except PyErr (UserArg × Option String × Option Nat × List Event) :=
  match a.parent with
  | some p => .ok (a.user, a.lang, some p, [])
  | none =>
    match resolveUser env.users a.user with
    | none => .error .attributeError
    | some u =>
      let landing :=
        if ps.processor == REST_API || ps.processor == LOCAL || ps.processor == IMAP
        then some (env.inboxId u.id) else none
      .ok (.user u, some u.pref_ocr_lang, landing, [.inboxGetOrCreate u.id])

/-- Lines 223-252 of `apply`: create a fresh document (version 0) when
`create_document` holds and none was carried in; bump the version and
recompute `page_count`/`file_name`/`size` of a carried-in document
otherwise; with neither, the local `doc` is never bound and reading it
raises.  Returns the document together with `version`, `target_version`
and the emitted events.  The fresh document's version is 0: modelled from
the spec for `Document.objects.create_document`, whose implementation is
not among the sources ("create one with version = 0"). -/
def branchStep (env : Env) (ps : PipeState) (a : ApplyArgs) (user : UserArg)
    (lang : Option String) (parent : Option Nat) (name : String) :
    Except (PyErr × List Event) (Doc × Nat × Nat × List Event) :=
  let page_count := env.pagecountOf ps.path
  let size := env.sizeOf ps.path
  if a.create_document && ps.doc.isNone then
    if env.createOk then
      let d : Doc :=
        { id := env.nextDocId, title := name, file_name := name, size := size,
          page_count := page_count, lang := lang, version := 0, owner := user,
          parent := parent, notes := a.notes }
      .ok (d, 0, 1, [.docCreated d])
    else .error (.validationError, [])
  else
    match ps.doc with
    | some d0 =>
      let d : Doc :=
        { d0 with version := d0.version + 1, page_count := page_count,
                  file_name := name, size := size }
      let ev := [Event.docSaved d] ++
        (if env.recreateOk then [Event.pagesRecreated] else [Event.pagesCreated])
      if env.fullCleanOk then .ok (d, d0.version, d0.version + 1, ev)
      else .error (.validationError, ev)
    | none => .error (.unboundLocal, [])

/-- The namespace string used by `apply`: the storage upload result with
`None` replaced by the empty string. -/
def nsOf (env : Env) : String :=
  match env.uploadNs with
  | some s => s
  | none => ""

/-- The kwargs of the whole-document `ocr_document_task` message
(lines 264-272 of `apply`). -/
def stdKw (uid : Nat) (d : Doc) (name : String) (lang : Option String)
    (ns : String) (version tv : Nat) : KwMap :=
  [("user_id", .int uid), ("document_id", .int d.id),
   ("file_name", .str name), ("lang", optStrVal lang),
   ("namespace", .str ns), ("version", .int version),
   ("target_version", .int tv)]

/-- Lines 254-275 of `apply`: copy the temp file into storage, close the
payload, and unless `skip_ocr` upload to the OCR namespace and enqueue
exactly one whole-document task message.  The `apply_async` argument is
not consulted anywhere in this part of the source. -/
def finishStep (env : Env) (ps : PipeState) (a : ApplyArgs) (user : UserArg)
    (lang : Option String) (name : String) (doc : Doc) (version tv : Nat)
    (ev : List Event) : Except (PyErr × List Event) (Doc × List Event) :=
  if env.copyOk then
    let ev1 := ev ++ [Event.copy ps.path (docUrl doc), Event.closePayload]
    if a.skip_ocr then .ok (doc, ev1)
    else
      let ev2 := ev1 ++ [Event.upload (docUrl doc)]
      match userIdOf user with
      | none => .error (.attributeError, ev2)
      | some uid =>
        .ok (doc, ev2 ++ [Event.dispatchDoc (stdKw uid doc name lang (nsOf env) version tv)])
  else .error (.storageIOError, ev)

/-- The effective document name (line 216-217 of `apply`): the `name`
argument, defaulting to the payload path's base name. -/
def nameOf (ps : PipeState) (a : ApplyArgs) : String :=
  match a.name with
  | some n => n
  | none => basename ps.path

/-- `DefaultPipeline.apply`, lines 178-275 of `import_pipeline.py`. -/
def applyPipeline (env : Env) (ps : PipeState) (a : ApplyArgs) :
    Except (PyErr × List Event) (Doc × List Event) :=
  match resolveStep env ps a with
  | .error e => .error (e, [])
  | .ok (user, lang, parent, ev0) =>
    let name := nameOf ps a
    match branchStep env ps a user lang parent name with
    | .error (e, ev1) => .error (e, ev0 ++ ev1)
    | .ok (doc, version, tv, ev1) =>
      finishStep env ps a user lang name doc version tv (ev0 ++ ev1)

/-!  ## The pipeline chain: `go_through_pipelines`  -/

/-- The result of a successful stage `apply`: the produced document, the
emitted events, and the `get_init_kwargs` / `get_apply_kwargs` overrides. -/
structure ApplyOut where
  doc : Doc
  events : List Event
  initOverride : Option KwMap
  applyOverride : Option KwMap

/-- A constructed stage instance: only its `apply` remains callable. -/
structure StageInst where
  applyFn : KwMap → Except (PyErr × List Event) ApplyOut

/-- One configured entry of `settings.PAPERMERGE_PIPELINES`: either
loading fails (`ImportError`, skipped with a log) or it resolves to a
class, i.e. a constructor from the current init kwargs. -/
inductive StageSpec
  | importError
  | loaded (cls : KwMap → Except PyErr StageInst)

/-- Running state of `go_through_pipelines`: the two threaded kwargs
dictionaries, the last produced document, and the event trace. -/
structure ChainSt where
  initK : KwMap
  applyK : KwMap
  doc : Option Doc
  evs : List Event

/-- Outcome of running a list of stages from a given state. -/
inductive ChainRes
  | next (st : ChainSt)
  | broke (st : ChainSt)
  | err (e : PyErr) (evs : List Event)

/-- `{**base, **override}` guarded by Python truthiness of the override
(`if init_kwargs_temp:`): `None` and the empty dict leave the base map
untouched; otherwise keys of the override win, the rest of the base
persists. -/
def mergeOverride (base : KwMap) (ov : Option KwMap) : KwMap :=
  match ov with
  | none => base
  | some o => if o.isEmpty then base else o ++ base

/-- The loop body of `go_through_pipelines` (lines 297-325): skip a stage
whose import fails; construct the stage from the current init kwargs,
breaking on `TypeError`, skipping on `FileTypeNotSupported`, propagating
any other exception; call `apply`, record its document as the current
result, and merge its truthy overrides into the running dictionaries. -/
def runStages : List StageSpec → ChainSt → ChainRes
  | [], st => .next st
  | .importError :: rest, st => runStages rest st
  | .loaded cls :: rest, st =>
    match cls st.initK with
    | .error .typeError => .broke st
    | .error .fileTypeNotSupported => runStages rest st
    | .error e => .err e st.evs
    | .ok inst =>
      match inst.applyFn st.applyK with
      | .error (e, ev) => .err e (st.evs ++ ev)
      | .ok out =>
        runStages rest
          { initK := mergeOverride st.initK out.initOverride,
            applyK := mergeOverride st.applyK out.applyOverride,
            doc := some out.doc,
            evs := st.evs ++ out.events }

/-- `go_through_pipelines` itself: run every configured stage starting from
the caller's kwargs and return the last produced document (possibly none);
uncaught exceptions propagate. -/
def goThroughPipelines (stages : List StageSpec) (initK applyK : KwMap) :
    Except (PyErr × List Event) (Option Doc × List Event) :=
  match runStages stages { initK := initK, applyK := applyK, doc := none, evs := [] } with
  | .next st => .ok (st.doc, st.evs)
  | .broke st => .ok (st.doc, st.evs)
  | .err e ev => .error (e, ev)

/-!  ## `DefaultPipeline.__init__` and its wiring into the chain  -/

/-- Payload normalization of `__init__` (lines 65-77): `None` and
unrecognized objects raise `TypeError`; raw bytes are written to a fresh
temporary file (`write_temp`); file-backed payloads expose their path. -/
def payloadPath (env : Env) : PayloadV → Option (String × PayloadV)
  | .pynone => none
  | .bytes _ => some (env.tempPath, .tempWrapper env.tempPath)
  | .tempUploaded p => some (p, .tempUploaded p)
  | .tempWrapper p => some (p, .tempWrapper p)
  | .other => none

/-- `DefaultPipeline.__init__` (including `check_mimetype`): decode
`payload` / `doc` / `processor` from the init kwargs, normalize the
payload, and admit the file only when its classified mimetype is in
`settings.PAPERMERGE_MIMETYPES`. -/
def defaultConstruct (env : Env) (initK : KwMap) : Except PyErr PipeState :=
  let processor := match lookupKw initK "processor" with
    | some (.str s) => s
    | _ => WEB
  let doc0 : Option Doc := match lookupKw initK "doc" with
    | some (.doc d) => some d
    | _ => none
  let payload0 := match lookupKw initK "payload" with
    | some (.payload p) => p
    | _ => .pynone
  match payloadPath env payload0 with
  | none => .error .typeError
  | some (path, payload1) =>
    if env.supported.contains (env.mimeOf path) then
      .ok { processor := processor, doc := doc0, path := path, payload := payload1 }
    else .error .fileTypeNotSupported

/-- Decode the `user` apply kwarg. -/
def decodeUser : Option PyVal → UserArg
  | some (.user u) => .user u
  | some (.str s) => .byName s
  | _ => .pynone

/-- Decode the kwargs dictionary passed to `apply(**apply_kwargs)` into the
named parameters of `DefaultPipeline.apply`, with the source's defaults for
absent keys. -/
def decodeApplyArgs (k : KwMap) : ApplyArgs :=
  { user := decodeUser (lookupKw k "user"),
    parent := match lookupKw k "parent" with
      | some (.int n) => some n
      | _ => none,
    lang := match lookupKw k "lang" with
      | some (.str s) => some s
      | _ => none,
    notes := match lookupKw k "notes" with
      | some (.str s) => some s
      | _ => none,
    name := match lookupKw k "name" with
      | some (.str s) => some s
      | _ => none,
    skip_ocr := match lookupKw k "skip_ocr" with
      | some (.bool b) => b
      | _ => false,
    apply_async := match lookupKw k "apply_async" with
      | some (.bool b) => b
      | _ => false,
    create_document := match lookupKw k "create_document" with
      | some (.bool b) => b
      | _ => true }

/-- A constructed `DefaultPipeline` instance as seen by the chain: `apply`
runs `applyPipeline`; after a successful apply, `get_init_kwargs` returns
`{'doc': self.doc}` and `get_apply_kwargs` returns `None`. -/
def mkInst (env : Env) (ps : PipeState) : StageInst where
  applyFn := fun applyK =>
    match applyPipeline env ps (decodeApplyArgs applyK) with
    | .error x => .error x
    | .ok (d, evs) =>
      .ok { doc := d, events := evs,
            initOverride := some [("doc", PyVal.doc d)], applyOverride := none }

/-- The `DefaultPipeline` class as a loadable chain stage. -/
def defaultStageCls (env : Env) (initK : KwMap) : Except PyErr StageInst :=
  (defaultConstruct env initK).map (fun ps => mkInst env ps)

/-- The configured entry for `DefaultPipeline`. -/
def defaultStage (env : Env) : StageSpec :=
  .loaded (defaultStageCls env)

/-!  ## `BaseImporter.create_document`  -/

/-- Instance attributes of `BaseImporter` used by `create_document`
(`apply_async` is set by subclasses, as are the page counting and storage
helpers it calls). -/
structure ImporterSelf where
  path : String
  filename : Option String
  user : UserRec
  parent_id : Option Nat
  lang : Option String
  skip_ocr : Bool
  apply_async : Bool
  deriving DecidableEq, Repr

/-- The storage-upload namespace as `BaseImporter` forwards it: no `None`
guard here, a missing namespace goes into the task kwargs as `None`. -/
def nsValOf (env : Env) : PyVal :=
  match env.uploadNs with
  | some s => .str s
  | none => .pynone

/-- The kwargs of one per-page `ocr_page` task message
(lines 109-116 of `importers/base.py`). -/
def pageKw (uid did : Nat) (fname : String) (p : Nat) (lang : Option String)
    (ns : PyVal) : KwMap :=
  [("user_id", .int uid), ("document_id", .int did),
   ("file_name", .str fname), ("page_num", .int p),
   ("lang", optStrVal lang), ("namespace", ns)]

/-- `BaseImporter.create_document` (lines 78-125 of `importers/base.py`):
create the document, copy the temp file, close the payload, and unless
`skip_ocr` upload and either dispatch one `ocr_page` message per page
number 1..page_count (`apply_async`) or call `ocr_document` for the whole
document. -/
def createDocumentImporter (env : Env) (s : ImporterSelf) :
    Except (PyErr × List Event) (Doc × List Event) :=
  let filename := match s.filename with
    | some f => if f = "" then basename s.path else f
    | none => basename s.path
  let page_count := env.pagecountOf s.path
  let size := env.sizeOf s.path
  if env.createOk then
    let d : Doc :=
      { id := env.nextDocId, title := filename, file_name := filename,
        size := size, page_count := page_count, lang := s.lang, version := 0,
        owner := .user s.user, parent := s.parent_id, notes := none }
    if env.copyOk then
      let ev := [Event.docCreated d, Event.copy s.path (docUrl d), Event.closePayload]
      if s.skip_ocr then .ok (d, ev)
      else
        let ev2 := ev ++ [Event.upload (docUrl d)]
        if s.apply_async then
          .ok (d, ev2 ++ (List.range' 1 page_count).map
            (fun p => Event.dispatchPage (pageKw s.user.id d.id filename p s.lang (nsValOf env))))
        else .ok (d, ev2 ++ [Event.ocrDocumentCall d.id page_count])
    else .error (.storageIOError, [Event.docCreated d])
  else .error (.validationError, [])

/-!  ## Event classification  -/

/-- Is this event the payload `close()`? -/
def isClose : Event → Bool
  | .closePayload => true
  | _ => false

/-- Number of payload `close()` calls in a trace. -/
def countClose (evs : List Event) : Nat :=
  evs.countP isClose

/-- Is this event an enqueued OCR task message (whole-document or per-page)? -/
def isOcrMsg : Event → Bool
  | .dispatchDoc _ => true
  | .dispatchPage _ => true
  | _ => false

/-- Number of enqueued OCR task messages in a trace. -/
def ocrMsgCount (evs : List Event) : Nat :=
  evs.countP isOcrMsg

/-- The kwargs of the whole-document task messages of a trace, in order. -/
def docMsgs (evs : List Event) : List KwMap :=
  evs.filterMap (fun e => match e with
    | .dispatchDoc kw => some kw
    | _ => none)

/-- The kwargs of the per-page task messages of a trace, in order. -/
def pageMsgs (evs : List Event) : List KwMap :=
  evs.filterMap (fun e => match e with
    | .dispatchPage kw => some kw
    | _ => none)

/-- Events that can occur before the storage/dispatch phase of `apply`:
owner-inbox creation and document record writes only. -/
def isPhaseOne : Event → Bool
  | .inboxGetOrCreate _ => true
  | .docCreated _ => true
  | .docSaved _ => true
  | .pagesRecreated => true
  | .pagesCreated => true
  | _ => false

/-- A trace made only of pre-storage events. -/
def phaseClean (evs : List Event) : Bool :=
  evs.all isPhaseOne

/-- The side effects claim C6 forbids before a validation failure
propagates: storage copy, storage upload, OCR dispatch, document record
creation. -/
def isC6Forbidden : Event → Bool
  | .copy _ _ => true
  | .upload _ => true
  | .dispatchDoc _ => true
  | .dispatchPage _ => true
  | .ocrDocumentCall _ _ => true
  | .docCreated _ => true
  | _ => false

/-- The side effects claim C10 forbids: any document record write, storage
operation, payload close, or OCR dispatch. -/
def isC10Forbidden : Event → Bool
  | .inboxGetOrCreate _ => false
  | _ => true

/-!  ## Inversion lemmas for the `apply` phases  -/

theorem phaseClean_append (a b : List Event) :
    phaseClean (a ++ b) = (phaseClean a && phaseClean b) := by
  simp [phaseClean, List.all_append]

theorem countClose_of_phaseClean (evs : List Event) (h : phaseClean evs = true) :
    countClose evs = 0 := by
  induction evs with
  | nil => rfl
  | cons e rest ih =>
    simp only [phaseClean, List.all_cons, Bool.and_eq_true] at h
    have h2 := ih h.2
    have h1 := h.1
    cases e <;> simp_all [countClose, isClose, List.countP_cons, isPhaseOne]

theorem docMsgs_of_phaseClean (evs : List Event) (h : phaseClean evs = true) :
    docMsgs evs = [] := by
  induction evs with
  | nil => rfl
  | cons e rest ih =>
    simp only [phaseClean, List.all_cons, Bool.and_eq_true] at h
    have h2 := ih h.2
    have h1 := h.1
    cases e <;> simp_all [docMsgs, List.filterMap_cons, isPhaseOne]

theorem pageMsgs_of_phaseClean (evs : List Event) (h : phaseClean evs = true) :
    pageMsgs evs = [] := by
  induction evs with
  | nil => rfl
  | cons e rest ih =>
    simp only [phaseClean, List.all_cons, Bool.and_eq_true] at h
    have h2 := ih h.2
    have h1 := h.1
    cases e <;> simp_all [pageMsgs, List.filterMap_cons, isPhaseOne]

theorem resolveStep_ok_clean (env : Env) (ps : PipeState) (a : ApplyArgs)
    (u : UserArg) (l : Option String) (pr : Option Nat) (ev0 : List Event)
    (h : resolveStep env ps a = .ok (u, l, pr, ev0)) :
    phaseClean ev0 = true := by
  unfold resolveStep at h
  cases hp : a.parent with
  | some p =>
    rw [hp] at h; simp at h
    rw [h.2.2.2]; rfl
  | none =>
    rw [hp] at h
    cases hu : resolveUser env.users a.user with
    | none => rw [hu] at h; simp at h
    | some v =>
      rw [hu] at h; simp at h
      rw [← h.2.2.2]; rfl

theorem branchStep_ok_clean (env : Env) (ps : PipeState) (a : ApplyArgs)
    (user : UserArg) (lang : Option String) (parent : Option Nat) (name : String)
    (d : Doc) (v tv : Nat) (ev : List Event)
    (h : branchStep env ps a user lang parent name = .ok (d, v, tv, ev)) :
    phaseClean ev = true := by
  unfold branchStep at h
  split at h
  · split at h
    · simp at h
      rw [← h.2.2.2]; rfl
    · simp at h
  · cases hd : ps.doc with
    | some d0 =>
      rw [hd] at h
      simp only at h
      split at h
      · simp at h
        rw [← h.2.2.2]
        cases hrc : env.recreateOk <;> simp [hrc] <;> rfl
      · simp at h
    | none => rw [hd] at h; simp at h

theorem branchStep_err_clean (env : Env) (ps : PipeState) (a : ApplyArgs)
    (user : UserArg) (lang : Option String) (parent : Option Nat) (name : String)
    (e : PyErr) (ev : List Event)
    (h : branchStep env ps a user lang parent name = .error (e, ev)) :
    phaseClean ev = true := by
  unfold branchStep at h
  split at h
  · split at h
    · simp at h
    · simp at h
      rw [h.2]; rfl
  · cases hd : ps.doc with
    | some d0 =>
      rw [hd] at h
      simp only at h
      split at h
      · simp at h
      · simp at h
        rw [← h.2]
        cases hrc : env.recreateOk <;> simp [hrc] <;> rfl
    | none => rw [hd] at h; simp at h; rw [h.2]; rfl

theorem branchStep_some_inv (env : Env) (ps : PipeState) (a : ApplyArgs)
    (user : UserArg) (lang : Option String) (parent : Option Nat) (name : String)
    (d0 d : Doc) (v tv : Nat) (ev : List Event) (hd : ps.doc = some d0)
    (h : branchStep env ps a user lang parent name = .ok (d, v, tv, ev)) :
    d.version = d0.version + 1 ∧ d.page_count = env.pagecountOf ps.path ∧
    d.file_name = name ∧ d.size = env.sizeOf ps.path ∧
    v = d0.version ∧ tv = d0.version + 1 := by
  unfold branchStep at h
  rw [hd] at h
  simp only [Option.isNone_some, Bool.and_false, Bool.false_eq_true, if_false] at h
  split at h
  · simp at h
    refine ⟨?_, ?_, ?_, ?_, h.2.1.symm, h.2.2.1.symm⟩ <;> rw [← h.1]
  · simp at h

theorem branchStep_none_inv (env : Env) (ps : PipeState) (a : ApplyArgs)
    (user : UserArg) (lang : Option String) (parent : Option Nat) (name : String)
    (d : Doc) (v tv : Nat) (ev : List Event)
    (hd : ps.doc = none) (hcr : a.create_document = true)
    (h : branchStep env ps a user lang parent name = .ok (d, v, tv, ev)) :
    d.version = 0 ∧ d.page_count = env.pagecountOf ps.path ∧
    d.file_name = name ∧ d.size = env.sizeOf ps.path ∧
    d.lang = lang ∧ d.owner = user ∧ d.parent = parent ∧
    v = 0 ∧ tv = 1 := by
  unfold branchStep at h
  rw [hd, hcr] at h
  simp only [Option.isNone_none, Bool.and_true, if_true] at h
  split at h
  · simp at h
    refine ⟨?_, ?_, ?_, ?_, ?_, ?_, ?_, h.2.1.symm, h.2.2.1.symm⟩ <;> rw [← h.1]
  · simp at h

theorem finishStep_ok_inv (env : Env) (ps : PipeState) (a : ApplyArgs)
    (user : UserArg) (lang : Option String) (name : String) (doc : Doc)
    (version tv : Nat) (ev : List Event) (d2 : Doc) (evs : List Event)
    (h : finishStep env ps a user lang name doc version tv ev = .ok (d2, evs)) :
    d2 = doc ∧ ∃ tail,
      evs = ev ++ [Event.copy ps.path (docUrl doc), Event.closePayload] ++ tail ∧
      ((a.skip_ocr = true ∧ tail = []) ∨
       (a.skip_ocr = false ∧ ∃ uid, userIdOf user = some uid ∧
         tail = [Event.upload (docUrl doc),
                 Event.dispatchDoc (stdKw uid doc name lang (nsOf env) version tv)])) := by
  unfold finishStep at h
  split at h
  · split at h
    · simp at h
      refine ⟨h.1.symm, [], by simp [← h.2], Or.inl ⟨by assumption, rfl⟩⟩
    · cases hu : userIdOf user with
      | none => rw [hu] at h; simp at h
      | some uid =>
        rw [hu] at h; simp at h
        refine ⟨h.1.symm, [Event.upload (docUrl doc),
          Event.dispatchDoc (stdKw uid doc name lang (nsOf env) version tv)],
          by simp [← h.2], Or.inr ⟨by simp_all, uid, rfl, rfl⟩⟩
  · simp at h

theorem finishStep_err_inv (env : Env) (ps : PipeState) (a : ApplyArgs)
    (user : UserArg) (lang : Option String) (name : String) (doc : Doc)
    (version tv : Nat) (ev : List Event) (e : PyErr) (evs : List Event)
    (h : finishStep env ps a user lang name doc version tv ev = .error (e, evs)) :
    (e = .storageIOError ∧ evs = ev) ∨
    (e = .attributeError ∧
      evs = ev ++ [Event.copy ps.path (docUrl doc), Event.closePayload,
                   Event.upload (docUrl doc)]) := by
  unfold finishStep at h
  split at h
  · split at h
    · simp at h
    · cases hu : userIdOf user with
      | none =>
        rw [hu] at h; simp at h
        exact Or.inr ⟨h.1.symm, by simp [← h.2]⟩
      | some uid => rw [hu] at h; simp at h
  · simp at h
    exact Or.inl ⟨h.1.symm, h.2.symm⟩

theorem applyPipeline_ok_inv (env : Env) (ps : PipeState) (a : ApplyArgs)
    (d' : Doc) (evs : List Event)
    (h : applyPipeline env ps a = .ok (d', evs)) :
    ∃ user lang parent ev0 v tv ev1 tail,
      resolveStep env ps a = .ok (user, lang, parent, ev0) ∧
      branchStep env ps a user lang parent (nameOf ps a) = .ok (d', v, tv, ev1) ∧
      evs = (ev0 ++ ev1) ++ [Event.copy ps.path (docUrl d'), Event.closePayload] ++ tail ∧
      ((a.skip_ocr = true ∧ tail = []) ∨
       (a.skip_ocr = false ∧ ∃ uid, userIdOf user = some uid ∧
         tail = [Event.upload (docUrl d'),
                 Event.dispatchDoc (stdKw uid d' (nameOf ps a) lang (nsOf env) v tv)])) := by
  unfold applyPipeline at h
  cases hr : resolveStep env ps a with
  | error e => rw [hr] at h; simp at h
  | ok q =>
    obtain ⟨user, lang, parent, ev0⟩ := q
    rw [hr] at h
    simp only at h
    cases hb : branchStep env ps a user lang parent (nameOf ps a) with
    | error pr =>
      obtain ⟨e, ev1⟩ := pr
      rw [hb] at h; simp at h
    | ok q2 =>
      obtain ⟨d, v, tv, ev1⟩ := q2
      rw [hb] at h
      simp only at h
      obtain ⟨hde, tail, htail, hdisj⟩ :=
        finishStep_ok_inv env ps a user lang (nameOf ps a) d v tv (ev0 ++ ev1) d' evs h
      subst hde
      exact ⟨user, lang, parent, ev0, v, tv, ev1, tail, rfl, hb, htail, hdisj⟩

theorem applyPipeline_err_inv (env : Env) (ps : PipeState) (a : ApplyArgs)
    (e : PyErr) (evs : List Event)
    (h : applyPipeline env ps a = .error (e, evs)) :
    (resolveStep env ps a = .error e ∧ evs = []) ∨
    (∃ user lang parent ev0 ev1,
      resolveStep env ps a = .ok (user, lang, parent, ev0) ∧
      branchStep env ps a user lang parent (nameOf ps a) = .error (e, ev1) ∧
      evs = ev0 ++ ev1) ∨
    (∃ user lang parent ev0 d v tv ev1,
      resolveStep env ps a = .ok (user, lang, parent, ev0) ∧
      branchStep env ps a user lang parent (nameOf ps a) = .ok (d, v, tv, ev1) ∧
      ((e = .storageIOError ∧ evs = ev0 ++ ev1) ∨
       (e = .attributeError ∧
        evs = (ev0 ++ ev1) ++ [Event.copy ps.path (docUrl d), Event.closePayload,
                               Event.upload (docUrl d)]))) := by
  unfold applyPipeline at h
  cases hr : resolveStep env ps a with
  | error e0 =>
    rw [hr] at h; simp at h
    exact Or.inl ⟨by rw [h.1], h.2⟩
  | ok q =>
    obtain ⟨user, lang, parent, ev0⟩ := q
    rw [hr] at h
    simp only at h
    cases hb : branchStep env ps a user lang parent (nameOf ps a) with
    | error pr =>
      obtain ⟨e1, ev1⟩ := pr
      rw [hb] at h; simp at h
      exact Or.inr (Or.inl ⟨user, lang, parent, ev0, ev1, rfl, by rw [← h.1]; exact hb, h.2.symm⟩)
    | ok q2 =>
      obtain ⟨d, v, tv, ev1⟩ := q2
      rw [hb] at h
      simp only at h
      have := finishStep_err_inv env ps a user lang (nameOf ps a) d v tv (ev0 ++ ev1) e evs h
      exact Or.inr (Or.inr ⟨user, lang, parent, ev0, d, v, tv, ev1, rfl, hb, this⟩)

/-!  ## Chain lemmas  -/

theorem runStages_append (xs ys : List StageSpec) (st : ChainSt) :
    runStages (xs ++ ys) st = (match runStages xs st with
      | .next st2 => runStages ys st2
      | .broke st2 => .broke st2
      | .err e ev => .err e ev) := by
  induction xs generalizing st with
  | nil => simp [runStages]
  | cons x rest ih =>
    cases x with
    | importError => simp only [List.cons_append, runStages]; exact ih st
    | loaded cls =>
      simp only [List.cons_append, runStages]
      rcases hc : cls st.initK with e | inst
      · cases e <;> simp
        · exact ih st
      · rcases ha : inst.applyFn st.applyK with ⟨e, ev⟩ | out
        · simp [ha]
        · simp only [ha]
          exact ih _

theorem lookupKw_append_of_none (a b : KwMap) (k : String)
    (h : lookupKw a k = none) : lookupKw (a ++ b) k = lookupKw b k := by
  induction a with
  | nil => rfl
  | cons p rest ih =>
    obtain ⟨k1, v1⟩ := p
    simp only [lookupKw, List.lookup, List.cons_append] at h ⊢
    cases hk : (k == k1) with
    | true => rw [hk] at h; simp at h
    | false => rw [hk] at h; exact ih h

theorem lookupKw_append_of_some (a b : KwMap) (k : String) (v : PyVal)
    (h : lookupKw a k = some v) : lookupKw (a ++ b) k = some v := by
  induction a with
  | nil => simp [lookupKw, List.lookup] at h
  | cons p rest ih =>
    obtain ⟨k1, v1⟩ := p
    simp only [lookupKw, List.lookup, List.cons_append] at h ⊢
    cases hk : (k == k1) with
    | true => rw [hk] at h; exact h
    | false => rw [hk] at h; exact ih h

theorem mergeOverride_lookup_none (base ov : KwMap) (k : String)
    (h : lookupKw ov k = none) :
    lookupKw (mergeOverride base (some ov)) k = lookupKw base k := by
  unfold mergeOverride
  by_cases he : ov.isEmpty
  · simp [he]
  · simp only [he, if_false, Bool.false_eq_true]
    exact lookupKw_append_of_none ov base k h

theorem mergeOverride_lookup_some (base ov : KwMap) (k : String) (v : PyVal)
    (h : lookupKw ov k = some v) :
    lookupKw (mergeOverride base (some ov)) k = some v := by
  unfold mergeOverride
  by_cases he : ov.isEmpty
  · cases ov with
    | nil => simp [lookupKw, List.lookup] at h
    | cons p rest => simp [List.isEmpty] at he
  · simp only [he, if_false, Bool.false_eq_true]
    exact lookupKw_append_of_some ov base k v h

/-!  ## Sample concrete inputs for witnesses and counterexamples  -/

/-- A superuser row with stored OCR-language preference "eng". -/
def sampleUser : UserRec :=
  { id := 9, username := "admin", is_superuser := true, pref_ocr_lang := "eng" }

/-- A concrete environment: one superuser, pdf supported, 3-page files,
all collaborators succeeding. -/
def sampleEnv : Env :=
  { supported := ["application/pdf"], mimeOf := fun _ => "application/pdf",
    pagecountOf := fun _ => 3, sizeOf := fun _ => 1000, tempPath := "/tmp/t",
    users := [sampleUser], inboxId := fun _ => 77, createOk := true,
    recreateOk := true, fullCleanOk := true, copyOk := true,
    uploadNs := some "ns1", nextDocId := 42 }

/-- A constructed pipeline instance over a web upload with no carried
document. -/
def samplePs : PipeState :=
  { processor := WEB, doc := none, path := "/tmp/up/a.pdf",
    payload := .tempWrapper "/tmp/up/a.pdf" }

/-- An existing document at version 2 (scenario B of the spec). -/
def sampleDocV2 : Doc :=
  { id := 5, title := "old", file_name := "old.pdf", size := 10,
    page_count := 2, lang := some "eng", version := 2,
    owner := .user sampleUser, parent := some 3, notes := none }

theorem not_mem_of_phaseClean (ev : List Event) (e : Event)
    (hc : phaseClean ev = true) (he : isPhaseOne e = false) : e ∉ ev := by
  intro hm
  have h2 := List.all_eq_true.mp hc e hm
  rw [he] at h2
  exact Bool.false_ne_true h2

theorem resolveStep_ok_events (env : Env) (ps : PipeState) (a : ApplyArgs)
    (u : UserArg) (l : Option String) (pr : Option Nat) (ev0 : List Event)
    (h : resolveStep env ps a = .ok (u, l, pr, ev0)) :
    ev0 = [] ∨ ∃ uid, ev0 = [Event.inboxGetOrCreate uid] := by
  unfold resolveStep at h
  cases hp : a.parent with
  | some p => rw [hp] at h; simp at h; exact Or.inl h.2.2.2
  | none =>
    rw [hp] at h
    cases hu : resolveUser env.users a.user with
    | none => rw [hu] at h; simp at h
    | some v =>
      rw [hu] at h; simp at h
      exact Or.inr ⟨v.id, h.2.2.2.symm⟩

theorem stdKw_lookup (uid : Nat) (d : Doc) (nm : String) (l : Option String)
    (ns : String) (v tv : Nat) :
    lookupKw (stdKw uid d nm l ns v tv) "version" = some (.int v) ∧
    lookupKw (stdKw uid d nm l ns v tv) "target_version" = some (.int tv) ∧
    lookupKw (stdKw uid d nm l ns v tv) "user_id" = some (.int uid) ∧
    lookupKw (stdKw uid d nm l ns v tv) "document_id" = some (.int d.id) ∧
    lookupKw (stdKw uid d nm l ns v tv) "file_name" = some (.str nm) ∧
    lookupKw (stdKw uid d nm l ns v tv) "lang" = some (optStrVal l) ∧
    lookupKw (stdKw uid d nm l ns v tv) "namespace" = some (.str ns) :=
  ⟨rfl, rfl, rfl, rfl, rfl, rfl, rfl⟩

theorem pageKw_lookup (uid did : Nat) (fname : String) (p : Nat)
    (l : Option String) (ns : PyVal) :
    lookupKw (pageKw uid did fname p l ns) "user_id" = some (.int uid) ∧
    lookupKw (pageKw uid did fname p l ns) "document_id" = some (.int did) ∧
    lookupKw (pageKw uid did fname p l ns) "file_name" = some (.str fname) ∧
    lookupKw (pageKw uid did fname p l ns) "page_num" = some (.int p) ∧
    lookupKw (pageKw uid did fname p l ns) "lang" = some (optStrVal l) ∧
    lookupKw (pageKw uid did fname p l ns) "namespace" = some ns ∧
    lookupKw (pageKw uid did fname p l ns) "version" = none ∧
    lookupKw (pageKw uid did fname p l ns) "target_version" = none :=
  ⟨rfl, rfl, rfl, rfl, rfl, rfl, rfl, rfl⟩

/-!  ## Claims  -/

/-- C1: for every successful `apply` on an existing document at version V,
the resulting document has version V+1 and `page_count` equal to the
freshly computed page count, and any dispatched whole-document OCR task
carries `version` = V and `target_version` = V+1; for every successful
`apply` creating a document, its version is 0, its `page_count` is the
computed count, and the dispatched task carries `version` = 0 and
`target_version` = 1. -/
theorem C1_document_versioning (env : Env) (ps : PipeState) (a : ApplyArgs)
    (d' : Doc) (evs : List Event)
    (h : applyPipeline env ps a = .ok (d', evs)) :
    (∀ d0, ps.doc = some d0 →
      d'.version = d0.version + 1 ∧ d'.page_count = env.pagecountOf ps.path ∧
      ∀ kw, Event.dispatchDoc kw ∈ evs →
        lookupKw kw "version" = some (.int d0.version) ∧
        lookupKw kw "target_version" = some (.int (d0.version + 1))) ∧
    (ps.doc = none → a.create_document = true →
      d'.version = 0 ∧ d'.page_count = env.pagecountOf ps.path ∧
      ∀ kw, Event.dispatchDoc kw ∈ evs →
        lookupKw kw "version" = some (.int 0) ∧
        lookupKw kw "target_version" = some (.int 1)) := by
  obtain ⟨user, lang, parent, ev0, v, tv, ev1, tail, hr, hb, hevs, hdisj⟩ :=
    applyPipeline_ok_inv env ps a d' evs h
  have hc0 := resolveStep_ok_clean env ps a user lang parent ev0 hr
  have hc1 := branchStep_ok_clean env ps a user lang parent (nameOf ps a) d' v tv ev1 hb
  have hmem : ∀ kw, Event.dispatchDoc kw ∈ evs →
      lookupKw kw "version" = some (.int v) ∧
      lookupKw kw "target_version" = some (.int tv) := by
    intro kw hkw
    rw [hevs] at hkw
    simp only [List.mem_append, List.mem_cons, List.not_mem_nil] at hkw
    rcases hkw with ((h0 | h1) | (hcp | (hcl | hf))) | ht
    · exact absurd h0 (not_mem_of_phaseClean ev0 _ hc0 rfl)
    · exact absurd h1 (not_mem_of_phaseClean ev1 _ hc1 rfl)
    · exact absurd hcp (by simp)
    · exact absurd hcl (by simp)
    · exact absurd hf (by simp)
    · rcases hdisj with ⟨_, htail⟩ | ⟨_, uid, _, htail⟩
      · rw [htail] at ht; simp at ht
      · rw [htail] at ht
        simp only [List.mem_cons, List.not_mem_nil, or_false] at ht
        rcases ht with hup | hdd
        · exact absurd hup (by simp)
        · have hkweq : kw = stdKw uid d' (nameOf ps a) lang (nsOf env) v tv := by
            injection hdd
          rw [hkweq]
          exact ⟨(stdKw_lookup uid d' (nameOf ps a) lang (nsOf env) v tv).1,
                 (stdKw_lookup uid d' (nameOf ps a) lang (nsOf env) v tv).2.1⟩
  constructor
  · intro d0 hd0
    obtain ⟨hv, hpc, _, _, hve, htve⟩ :=
      branchStep_some_inv env ps a user lang parent (nameOf ps a) d0 d' v tv ev1 hd0 hb
    subst hve
    subst htve
    exact ⟨hv, hpc, hmem⟩
  · intro hd0 hcr
    obtain ⟨hv, hpc, _, _, _, _, _, hve, htve⟩ :=
      branchStep_none_inv env ps a user lang parent (nameOf ps a) d' v tv ev1 hd0 hcr hb
    subst hve
    subst htve
    exact ⟨hv, hpc, hmem⟩

/-- Concrete environment for the C1 witness: 5-page file (scenario B). -/
def envC1 : Env := { sampleEnv with pagecountOf := fun _ => 5 }

/-- Pipeline instance carrying the existing version-2 document. -/
def psC1 : PipeState := { samplePs with doc := some sampleDocV2 }

/-- Apply arguments: explicit owner, target folder and display name. -/
def aC1 : ApplyArgs :=
  { user := .user sampleUser, parent := some 3, name := some "a.pdf" }

/-- The document produced by the C1 witness run. -/
def dC1 : Doc :=
  { sampleDocV2 with version := 3, page_count := 5, file_name := "a.pdf", size := 1000 }

/-- The event trace of the C1 witness run. -/
def evsC1 : List Event :=
  [Event.docSaved dC1, Event.pagesRecreated,
   Event.copy "/tmp/up/a.pdf" "docs/5/v3", Event.closePayload,
   Event.upload "docs/5/v3",
   Event.dispatchDoc
     [("user_id", .int 9), ("document_id", .int 5), ("file_name", .str "a.pdf"),
      ("lang", .pynone), ("namespace", .str "ns1"),
      ("version", .int 2), ("target_version", .int 3)]]

/-- Witness for C1: re-ingesting the version-2 document with a 5-page file
yields version 3, page_count 5, and a task carrying version 2 and
target_version 3. -/
theorem C1_document_versioning_witness :
    dC1.version = sampleDocV2.version + 1 ∧
    dC1.page_count = envC1.pagecountOf psC1.path ∧
    ∀ kw, Event.dispatchDoc kw ∈ evsC1 →
      lookupKw kw "version" = some (.int sampleDocV2.version) ∧
      lookupKw kw "target_version" = some (.int (sampleDocV2.version + 1)) :=
  (C1_document_versioning envC1 psC1 aC1 dC1 evsC1 (by rfl)).1 sampleDocV2 rfl

/-- C3: for every configured stage list, once constructing a stage fails
with `TypeError` (the spec's `MalformedInit`), the chain breaks: the run's
result is the document and trace accumulated by the stages before it, and
is independent of every stage configured after it — no later stage is
loaded, constructed or applied. -/
theorem C3_malformed_init_hard_stop (pre : List StageSpec)
    (cls : KwMap → Except PyErr StageInst) (i0 a0 : KwMap) (st1 : ChainSt)
    (h1 : runStages pre { initK := i0, applyK := a0, doc := none, evs := [] } = .next st1)
    (h2 : cls st1.initK = .error .typeError) (rest : List StageSpec) :
    goThroughPipelines (pre ++ .loaded cls :: rest) i0 a0 = .ok (st1.doc, st1.evs) := by
  unfold goThroughPipelines
  rw [runStages_append, h1]
  simp only [runStages, h2]

/-- Witness for C3: a malformed first stage stops a two-stage chain with no
document produced; the configured second stage is irrelevant. -/
theorem C3_malformed_init_hard_stop_witness :
    goThroughPipelines
      ([] ++ StageSpec.loaded (fun _ => .error .typeError) ::
        [StageSpec.loaded (fun _ => .error .fileTypeNotSupported)]) [] []
      = .ok (none, []) :=
  C3_malformed_init_hard_stop [] (fun _ => .error .typeError) [] []
    { initK := [], applyK := [], doc := none, evs := [] } rfl rfl
    [StageSpec.loaded (fun _ => .error .fileTypeNotSupported)]

/-- C4: a payload whose classified mimetype is absent from the configured
allow-list makes `DefaultPipeline` construction fail with
`FileTypeNotSupported` (the spec's `IncompatiblePayload`), and the chain
continues with the next configured stage from an unchanged state — in
particular both kwargs dictionaries are identical before and after the
skipped stage. -/
theorem C4_incompatible_payload_skip (env : Env) (initK : KwMap)
    (pv pv2 : PayloadV) (p : String)
    (hpay : lookupKw initK "payload" = some (.payload pv))
    (hpath : payloadPath env pv = some (p, pv2))
    (hmime : env.mimeOf p ∉ env.supported) :
    defaultStageCls env initK = .error .fileTypeNotSupported ∧
    ∀ st rest, st.initK = initK →
      runStages (.loaded (defaultStageCls env) :: rest) st = runStages rest st := by
  have hcon : defaultStageCls env initK = .error .fileTypeNotSupported := by
    unfold defaultStageCls defaultConstruct
    rw [hpay]
    simp [hpath, hmime, Except.map]
  refine ⟨hcon, fun st rest hst => ?_⟩
  simp only [runStages, hst, hcon]

/-- Environment whose classifier reports a mimetype outside the allow-list. -/
def envC4 : Env := { sampleEnv with mimeOf := fun _ => "image/png" }

/-- Init kwargs with a file-backed payload for the C4 witness. -/
def initKC4 : KwMap := [("payload", .payload (.tempWrapper "/tmp/up/a.pdf"))]

/-- Chain state entering the skipped stage in the C4 witness. -/
def stC4 : ChainSt := { initK := initKC4, applyK := [], doc := none, evs := [] }

/-- Witness for C4 at a png payload against a pdf-only allow-list. -/
theorem C4_incompatible_payload_skip_witness :
    defaultStageCls envC4 initKC4 = .error .fileTypeNotSupported ∧
    runStages [StageSpec.loaded (defaultStageCls envC4)] stC4 = runStages [] stC4 := by
  have h := C4_incompatible_payload_skip envC4 initKC4
    (.tempWrapper "/tmp/up/a.pdf") (.tempWrapper "/tmp/up/a.pdf") "/tmp/up/a.pdf"
    (by decide) (by decide) (by decide)
  exact ⟨h.1, h.2 stC4 [] rfl⟩

/-- C9: after a stage constructs and applies successfully, the chain
continues with kwargs dictionaries obtained by `mergeOverride`: a key
absent from the stage's override keeps its previous value for the next
stage, a key present in the override takes the override's value, and a
`None` override leaves the dictionary untouched — merge, never wholesale
replacement. -/
theorem C9_argmap_merge (cls : KwMap → Except PyErr StageInst)
    (inst : StageInst) (out : ApplyOut) (st : ChainSt) (rest : List StageSpec)
    (k : String) (h1 : cls st.initK = .ok inst)
    (h2 : inst.applyFn st.applyK = .ok out) :
    runStages (.loaded cls :: rest) st = runStages rest
      { initK := mergeOverride st.initK out.initOverride,
        applyK := mergeOverride st.applyK out.applyOverride,
        doc := some out.doc, evs := st.evs ++ out.events } ∧
    (∀ base ov, (lookupKw ov k = none →
        lookupKw (mergeOverride base (some ov)) k = lookupKw base k) ∧
      (∀ v, lookupKw ov k = some v →
        lookupKw (mergeOverride base (some ov)) k = some v)) ∧
    (∀ base, mergeOverride base none = base) := by
  refine ⟨by simp [runStages, h1, h2], ?_, fun base => rfl⟩
  intro base ov
  exact ⟨mergeOverride_lookup_none base ov k,
         fun v hv => mergeOverride_lookup_some base ov k v hv⟩

/-- A stage instance propagating only a `doc` init override. -/
def instC9 : StageInst :=
  { applyFn := fun _ => .ok
      { doc := sampleDocV2, events := [],
        initOverride := some [("doc", .doc sampleDocV2)], applyOverride := none } }

/-- Witness for C9: under the override `{'doc': …}`, the unrelated key
`payload` keeps its value, the key `doc` takes the override's value. -/
theorem C9_argmap_merge_witness :
    lookupKw (mergeOverride [("payload", PyVal.pynone)]
        (some [("doc", PyVal.doc sampleDocV2)])) "payload"
      = lookupKw [("payload", PyVal.pynone)] "payload" ∧
    lookupKw (mergeOverride [("payload", PyVal.pynone)]
        (some [("doc", PyVal.doc sampleDocV2)])) "doc"
      = some (PyVal.doc sampleDocV2) := by
  have h1 := C9_argmap_merge (fun _ => .ok instC9) instC9
    { doc := sampleDocV2, events := [],
      initOverride := some [("doc", .doc sampleDocV2)], applyOverride := none }
    { initK := [("payload", PyVal.pynone)], applyK := [], doc := none, evs := [] }
    [] "payload" rfl rfl
  have h2 := C9_argmap_merge (fun _ => .ok instC9) instC9
    { doc := sampleDocV2, events := [],
      initOverride := some [("doc", .doc sampleDocV2)], applyOverride := none }
    { initK := [("payload", PyVal.pynone)], applyK := [], doc := none, evs := [] }
    [] "doc" rfl rfl
  refine ⟨(h1.2.1 [("payload", PyVal.pynone)] [("doc", PyVal.doc sampleDocV2)]).1 rfl, ?_⟩
  exact (h2.2.1 [("payload", PyVal.pynone)] [("doc", PyVal.doc sampleDocV2)]).2
    (PyVal.doc sampleDocV2) rfl

/-- C10: calling `apply` with `create_document` false and no carried
document raises (the local `doc` is never bound) before any document
record creation, storage copy or upload, payload close, or OCR dispatch;
no document is returned from such a call. -/
theorem C10_no_create_no_doc (env : Env) (ps : PipeState) (a : ApplyArgs)
    (hdoc : ps.doc = none) (hcr : a.create_document = false) :
    ∃ e evs, applyPipeline env ps a = .error (e, evs) ∧
      evs.countP isC10Forbidden = 0 := by
  cases hr : resolveStep env ps a with
  | error e =>
    refine ⟨e, [], ?_, rfl⟩
    unfold applyPipeline
    rw [hr]
  | ok q =>
    obtain ⟨user, lang, parent, ev0⟩ := q
    have hb : branchStep env ps a user lang parent (nameOf ps a)
        = .error (.unboundLocal, []) := by
      unfold branchStep
      rw [hdoc, hcr]
      simp
    have happ : applyPipeline env ps a = .error (.unboundLocal, ev0) := by
      unfold applyPipeline
      rw [hr]
      simp only
      rw [hb]
      simp
    refine ⟨.unboundLocal, ev0, happ, ?_⟩
    rcases resolveStep_ok_events env ps a user lang parent ev0 hr with h | ⟨uid, h⟩ <;>
      rw [h] <;> rfl

/-- Witness for C10 at a concrete web upload with `create_document` false. -/
theorem C10_no_create_no_doc_witness :
    ∃ e evs, applyPipeline sampleEnv samplePs { create_document := false }
        = .error (e, evs) ∧ evs.countP isC10Forbidden = 0 :=
  C10_no_create_no_doc sampleEnv samplePs { create_document := false } rfl rfl

/-- C6: when document creation fails uniqueness/field validation, the
`DocumentValidationError` propagates out of `apply` and out of the chain
(the chain catches only construction-time `TypeError` and
`FileTypeNotSupported`), and up to that moment no storage copy, storage
upload, OCR dispatch, or document record creation has occurred. -/
theorem C6_validation_failure_atomic (env : Env) (ps : PipeState) (a : ApplyArgs)
    (u : UserArg) (l : Option String) (pr : Option Nat) (ev0 : List Event)
    (hdoc : ps.doc = none) (hcr : a.create_document = true)
    (hval : env.createOk = false)
    (hres : resolveStep env ps a = .ok (u, l, pr, ev0)) :
    applyPipeline env ps a = .error (.validationError, ev0) ∧
    ev0.countP isC6Forbidden = 0 ∧
    ∀ st rest, defaultConstruct env st.initK = .ok ps →
      decodeApplyArgs st.applyK = a →
      runStages (defaultStage env :: rest) st
        = .err .validationError (st.evs ++ ev0) := by
  have hb : branchStep env ps a u l pr (nameOf ps a)
      = .error (.validationError, []) := by
    unfold branchStep
    rw [hdoc, hcr, hval]
    simp
  have happ : applyPipeline env ps a = .error (.validationError, ev0) := by
    unfold applyPipeline
    rw [hres]
    simp only
    rw [hb]
    simp
  have hclean : ev0.countP isC6Forbidden = 0 := by
    rcases resolveStep_ok_events env ps a u l pr ev0 hres with h | ⟨uid, h⟩ <;>
      rw [h] <;> rfl
  refine ⟨happ, hclean, ?_⟩
  intro st rest hcon hdec
  have hcls : defaultStageCls env st.initK = .ok (mkInst env ps) := by
    unfold defaultStageCls
    rw [hcon]
    rfl
  have happl : (mkInst env ps).applyFn st.applyK
      = .error (.validationError, ev0) := by
    unfold mkInst
    simp only
    rw [hdec, happ]
  unfold defaultStage
  simp [runStages, hcls, happl]

/-- Environment in which document creation fails validation. -/
def envC6 : Env := { sampleEnv with createOk := false }

/-- Apply arguments for the C6 witness: explicit owner and folder. -/
def aC6 : ApplyArgs := { user := .user sampleUser, parent := some 5 }

/-- Chain state entering the default stage in the C6 witness. -/
def stC6 : ChainSt :=
  { initK := [("payload", .payload (.tempWrapper "/tmp/up/a.pdf"))],
    applyK := [("parent", .int 5), ("user", .user sampleUser)],
    doc := none, evs := [] }

/-- Witness for C6: the validation failure propagates through `apply` and
the chain with an empty side-effect trace. -/
theorem C6_validation_failure_atomic_witness :
    applyPipeline envC6 samplePs aC6 = .error (.validationError, []) ∧
    List.countP isC6Forbidden [] = 0 ∧
    runStages [defaultStage envC6] stC6 = .err .validationError ([] ++ []) := by
  have h := C6_validation_failure_atomic envC6 samplePs aC6
    (.user sampleUser) none (some 5) [] rfl rfl rfl (by rfl)
  exact ⟨h.1, h.2.1, h.2.2 stC6 [] (by rfl) (by rfl)⟩

theorem ocrCount_of_phaseClean (evs : List Event) (h : phaseClean evs = true) :
    ocrMsgCount evs = 0 := by
  induction evs with
  | nil => rfl
  | cons e rest ih =>
    simp only [phaseClean, List.all_cons, Bool.and_eq_true] at h
    have h2 := ih h.2
    have h1 := h.1
    cases e <;> simp_all [ocrMsgCount, isOcrMsg, List.countP_cons, isPhaseOne]

theorem pageMsgs_map_dispatchPage (f : Nat → KwMap) (l : List Nat) :
    pageMsgs (l.map (fun p => Event.dispatchPage (f p))) = l.map f := by
  induction l with
  | nil => rfl
  | cons a t ih => simp [pageMsgs, List.filterMap_cons] at ih ⊢; exact ih

theorem docMsgs_map_dispatchPage (f : Nat → KwMap) (l : List Nat) :
    docMsgs (l.map (fun p => Event.dispatchPage (f p))) = [] := by
  induction l with
  | nil => rfl
  | cons a t ih => simp [docMsgs, List.filterMap_cons] at ih ⊢

theorem ocrMsgCount_map_dispatchPage (f : Nat → KwMap) (l : List Nat) :
    ocrMsgCount (l.map (fun p => Event.dispatchPage (f p))) = l.length := by
  induction l with
  | nil => rfl
  | cons a t ih =>
    simp [ocrMsgCount, List.countP_cons, isOcrMsg] at ih ⊢

theorem createDocumentImporter_msgs (env : Env) (s : ImporterSelf)
    (d : Doc) (evs : List Event)
    (h : createDocumentImporter env s = .ok (d, evs)) :
    (s.skip_ocr = true → ocrMsgCount evs = 0) ∧
    (s.skip_ocr = false → s.apply_async = true →
      pageMsgs evs = (List.range' 1 (env.pagecountOf s.path)).map
        (fun p => pageKw s.user.id d.id d.file_name p s.lang (nsValOf env)) ∧
      docMsgs evs = [] ∧ ocrMsgCount evs = env.pagecountOf s.path) ∧
    (s.skip_ocr = false → s.apply_async = false →
      ocrMsgCount evs = 0 ∧ pageMsgs evs = [] ∧ docMsgs evs = []) ∧
    d.page_count = env.pagecountOf s.path ∧ d.version = 0 := by
  unfold createDocumentImporter at h
  cases hcr : env.createOk with
  | false => rw [hcr] at h; simp at h
  | true =>
    rw [hcr] at h
    cases hcp : env.copyOk with
    | false => rw [hcp] at h; simp at h
    | true =>
      rw [hcp] at h
      cases hs : s.skip_ocr with
      | true =>
        rw [hs] at h
        simp at h
        obtain ⟨hd, hevs⟩ := h
        have hpc : d.page_count = env.pagecountOf s.path := by rw [← hd]
        have hv : d.version = 0 := by rw [← hd]
        subst hevs
        refine ⟨fun _ => rfl, fun hf => absurd hf (by simp),
                fun hf => absurd hf (by simp), hpc, hv⟩
      | false =>
        rw [hs] at h
        cases ha : s.apply_async with
        | true =>
          rw [ha] at h
          simp at h
          obtain ⟨hd, hevs⟩ := h
          have hpc : d.page_count = env.pagecountOf s.path := by rw [← hd]
          have hv : d.version = 0 := by rw [← hd]
          have hid : d.id = env.nextDocId := by rw [← hd]
          have hfn : d.file_name = (match s.filename with
            | some f => if f = "" then basename s.path else f
            | none => basename s.path) := by rw [← hd]
          subst hevs
          refine ⟨fun hf => absurd hf (by simp), fun _ _ => ⟨?_, ?_, ?_⟩,
                  fun _ hf => absurd hf (by simp), hpc, hv⟩
          · simp only [hid, hfn]
            simp [pageMsgs, List.filterMap_cons]
            exact List.filterMap_eq_map_iff_forall_eq_some.mpr (fun x _ => rfl)
          · simp [docMsgs, List.filterMap_cons]
          · have hm := ocrMsgCount_map_dispatchPage (fun p => pageKw s.user.id env.nextDocId
              (match s.filename with
               | some f => if f = "" then basename s.path else f
               | none => basename s.path) p s.lang (nsValOf env))
              (List.range' 1 (env.pagecountOf s.path))
            simp [ocrMsgCount, List.countP_cons, isOcrMsg, List.countP_map] at hm ⊢
            omega
        | false =>
          rw [ha] at h
          simp at h
          obtain ⟨hd, hevs⟩ := h
          have hpc : d.page_count = env.pagecountOf s.path := by rw [← hd]
          have hv : d.version = 0 := by rw [← hd]
          subst hevs
          refine ⟨fun hf => absurd hf (by simp), fun _ hf => absurd hf (by simp),
                  fun _ _ => ⟨rfl, rfl, rfl⟩, hpc, hv⟩

theorem pageMsgs_append (a b : List Event) :
    pageMsgs (a ++ b) = pageMsgs a ++ pageMsgs b := by
  simp [pageMsgs, List.filterMap_append]

theorem docMsgs_append (a b : List Event) :
    docMsgs (a ++ b) = docMsgs a ++ docMsgs b := by
  simp [docMsgs, List.filterMap_append]

theorem ocrMsgCount_append (a b : List Event) :
    ocrMsgCount (a ++ b) = ocrMsgCount a + ocrMsgCount b := by
  simp [ocrMsgCount, List.countP_append]

theorem countClose_append (a b : List Event) :
    countClose (a ++ b) = countClose a + countClose b := by
  simp [countClose, List.countP_append]

theorem applyPipeline_msgs (env : Env) (ps : PipeState) (a : ApplyArgs)
    (d : Doc) (evs : List Event)
    (h : applyPipeline env ps a = .ok (d, evs)) :
    (a.skip_ocr = true → ocrMsgCount evs = 0) ∧
    (a.skip_ocr = false → ocrMsgCount evs = 1 ∧ pageMsgs evs = []) := by
  obtain ⟨user, lang, parent, ev0, v, tv, ev1, tail, hr, hb, hevs, hdisj⟩ :=
    applyPipeline_ok_inv env ps a d evs h
  have hc0 := resolveStep_ok_clean env ps a user lang parent ev0 hr
  have hc1 := branchStep_ok_clean env ps a user lang parent (nameOf ps a) d v tv ev1 hb
  have ho0 := ocrCount_of_phaseClean ev0 hc0
  have ho1 := ocrCount_of_phaseClean ev1 hc1
  have hp0 := pageMsgs_of_phaseClean ev0 hc0
  have hp1 := pageMsgs_of_phaseClean ev1 hc1
  subst hevs
  constructor
  · intro hskip
    rcases hdisj with ⟨_, htail⟩ | ⟨hns, _⟩
    · subst htail
      rw [ocrMsgCount_append, ocrMsgCount_append, ocrMsgCount_append, ho0, ho1]
      rfl
    · rw [hskip] at hns
      exact absurd hns (by simp)
  · intro hskip
    rcases hdisj with ⟨hs2, _⟩ | ⟨_, uid, hu, htail⟩
    · rw [hskip] at hs2
      exact absurd hs2 (by simp)
    · subst htail
      constructor
      · rw [ocrMsgCount_append, ocrMsgCount_append, ocrMsgCount_append, ho0, ho1]
        rfl
      · rw [pageMsgs_append, pageMsgs_append, pageMsgs_append, hp0, hp1]
        rfl

/-- Apply arguments requesting per-page asynchronous OCR from the default
pipeline stage. -/
def aC2 : ApplyArgs :=
  { user := .user sampleUser, parent := some 3, name := some "a.pdf",
    apply_async := true }

/-- Counterexample to C2 as stated: `DefaultPipeline.apply` with per-page
asynchronous mode requested (`apply_async` true), OCR not skipped, and a
computed page count of 3 enqueues exactly one task message, not three —
the `apply_async` argument is ignored by `DefaultPipeline.apply`. -/
theorem C2_counterexample_per_page_ignored :
    aC2.apply_async = true ∧ aC2.skip_ocr = false ∧
    sampleEnv.pagecountOf samplePs.path = 3 ∧
    (match applyPipeline sampleEnv samplePs aC2 with
     | .ok (_, evs) => ocrMsgCount evs
     | .error _ => 999) = 1 ∧ (1 : Nat) ≠ 3 :=
  ⟨rfl, rfl, rfl, by rfl, by decide⟩

/-- C2 (amended): with `skip_ocr` no OCR task message is enqueued by either
implementation; `BaseImporter.create_document` with per-page asynchronous
mode enqueues exactly `page_count` per-page messages, numbered 1 through
`page_count` inclusive, and no whole-document message; but
`DefaultPipeline.apply` ignores its `apply_async` argument — whenever
`skip_ocr` is false it enqueues exactly one whole-document message and no
per-page message, regardless of the requested mode. -/
theorem C2_amended_ocr_dispatch_count (env : Env) (ps : PipeState)
    (a : ApplyArgs) (s : ImporterSelf) (d d2 : Doc) (evs evs2 : List Event) :
    (applyPipeline env ps a = .ok (d, evs) → a.skip_ocr = true →
      ocrMsgCount evs = 0) ∧
    (applyPipeline env ps a = .ok (d, evs) → a.skip_ocr = false →
      ocrMsgCount evs = 1 ∧ pageMsgs evs = []) ∧
    (createDocumentImporter env s = .ok (d2, evs2) → s.skip_ocr = true →
      ocrMsgCount evs2 = 0) ∧
    (createDocumentImporter env s = .ok (d2, evs2) → s.skip_ocr = false →
      s.apply_async = true →
      ocrMsgCount evs2 = env.pagecountOf s.path ∧
      pageMsgs evs2 = (List.range' 1 (env.pagecountOf s.path)).map
        (fun p => pageKw s.user.id d2.id d2.file_name p s.lang (nsValOf env)) ∧
      docMsgs evs2 = []) := by
  refine ⟨fun h hs => (applyPipeline_msgs env ps a d evs h).1 hs,
          fun h hs => (applyPipeline_msgs env ps a d evs h).2 hs,
          fun h hs => (createDocumentImporter_msgs env s d2 evs2 h).1 hs,
          fun h hs ha => ?_⟩
  obtain ⟨hpm, hdm, hcnt⟩ := (createDocumentImporter_msgs env s d2 evs2 h).2.1 hs ha
  exact ⟨hcnt, hpm, hdm⟩

/-- The `BaseImporter` state for the C2 witness: per-page asynchronous
mode over a 3-page payload. -/
def impC2 : ImporterSelf :=
  { path := "/tmp/up/a.pdf", filename := some "a.pdf", user := sampleUser,
    parent_id := some 4, lang := some "deu", skip_ocr := false,
    apply_async := true }

/-- The document created by the C2 witness run. -/
def dImpC2 : Doc :=
  { id := 42, title := "a.pdf", file_name := "a.pdf", size := 1000,
    page_count := 3, lang := some "deu", version := 0,
    owner := .user sampleUser, parent := some 4, notes := none }

/-- The event trace of the C2 witness run. -/
def evsImpC2 : List Event :=
  [Event.docCreated dImpC2, Event.copy "/tmp/up/a.pdf" "docs/42/v0",
   Event.closePayload, Event.upload "docs/42/v0"] ++
  (List.range' 1 3).map
    (fun p => Event.dispatchPage (pageKw 9 42 "a.pdf" p (some "deu") (.str "ns1")))

/-- Witness for the amended C2: the importer run over the 3-page payload
enqueues exactly 3 per-page messages numbered 1..3 and no whole-document
message. -/
theorem C2_amended_ocr_dispatch_count_witness :
    ocrMsgCount evsImpC2 = sampleEnv.pagecountOf impC2.path ∧
    pageMsgs evsImpC2 = (List.range' 1 (sampleEnv.pagecountOf impC2.path)).map
      (fun p => pageKw impC2.user.id dImpC2.id dImpC2.file_name p impC2.lang
        (nsValOf sampleEnv)) ∧
    docMsgs evsImpC2 = [] :=
  (C2_amended_ocr_dispatch_count sampleEnv samplePs {} impC2 dImpC2 dImpC2
    [] evsImpC2).2.2.2 (by rfl) rfl rfl

/-- Environment with single-page payloads for the C7 runs. -/
def envC7 : Env := { sampleEnv with pagecountOf := fun _ => 1 }

/-- The `BaseImporter` state for the C7 runs: per-page asynchronous mode. -/
def impC7 : ImporterSelf :=
  { path := "/tmp/up/a.pdf", filename := some "a.pdf", user := sampleUser,
    parent_id := some 4, lang := some "deu", skip_ocr := false,
    apply_async := true }

/-- Counterexample to C7 as stated: the single per-page task message of a
1-page ingestion carries neither a `version` nor a `target_version` key —
per-page messages are not self-sufficient about versioning. -/
theorem C7_counterexample_no_version_fields :
    (match createDocumentImporter envC7 impC7 with
     | .ok (_, evs) => (pageMsgs evs).map
         (fun kw => (lookupKw kw "version", lookupKw kw "target_version"))
     | .error _ => [(some PyVal.pynone, some PyVal.pynone)])
      = [(none, none)] := by rfl

/-- C7 (amended): every per-page OCR task message dispatched by
`BaseImporter.create_document` carries the user id, document id, file
name, language, storage namespace and that page's number — but no source
or target version field (those appear only in the whole-document message
of `DefaultPipeline.apply`). -/
theorem C7_amended_page_message_fields (env : Env) (s : ImporterSelf)
    (d : Doc) (evs : List Event)
    (h : createDocumentImporter env s = .ok (d, evs))
    (hskip : s.skip_ocr = false) (hasync : s.apply_async = true) :
    pageMsgs evs = (List.range' 1 (env.pagecountOf s.path)).map
      (fun p => pageKw s.user.id d.id d.file_name p s.lang (nsValOf env)) ∧
    ∀ p,
      lookupKw (pageKw s.user.id d.id d.file_name p s.lang (nsValOf env))
        "user_id" = some (.int s.user.id) ∧
      lookupKw (pageKw s.user.id d.id d.file_name p s.lang (nsValOf env))
        "document_id" = some (.int d.id) ∧
      lookupKw (pageKw s.user.id d.id d.file_name p s.lang (nsValOf env))
        "file_name" = some (.str d.file_name) ∧
      lookupKw (pageKw s.user.id d.id d.file_name p s.lang (nsValOf env))
        "page_num" = some (.int p) ∧
      lookupKw (pageKw s.user.id d.id d.file_name p s.lang (nsValOf env))
        "lang" = some (optStrVal s.lang) ∧
      lookupKw (pageKw s.user.id d.id d.file_name p s.lang (nsValOf env))
        "namespace" = some (nsValOf env) ∧
      lookupKw (pageKw s.user.id d.id d.file_name p s.lang (nsValOf env))
        "version" = none ∧
      lookupKw (pageKw s.user.id d.id d.file_name p s.lang (nsValOf env))
        "target_version" = none :=
  ⟨((createDocumentImporter_msgs env s d evs h).2.1 hskip hasync).1,
   fun p => pageKw_lookup s.user.id d.id d.file_name p s.lang (nsValOf env)⟩

/-- The document created by the C7 witness run. -/
def dImpC7 : Doc :=
  { id := 42, title := "a.pdf", file_name := "a.pdf", size := 1000,
    page_count := 1, lang := some "deu", version := 0,
    owner := .user sampleUser, parent := some 4, notes := none }

/-- The event trace of the C7 witness run. -/
def evsImpC7 : List Event :=
  [Event.docCreated dImpC7, Event.copy "/tmp/up/a.pdf" "docs/42/v0",
   Event.closePayload, Event.upload "docs/42/v0",
   Event.dispatchPage (pageKw 9 42 "a.pdf" 1 (some "deu") (.str "ns1"))]

/-- Witness for the amended C7 at the 1-page run. -/
theorem C7_amended_page_message_fields_witness :
    pageMsgs evsImpC7 = (List.range' 1 (envC7.pagecountOf impC7.path)).map
      (fun p => pageKw impC7.user.id dImpC7.id dImpC7.file_name p impC7.lang
        (nsValOf envC7)) ∧
    lookupKw (pageKw impC7.user.id dImpC7.id dImpC7.file_name 1 impC7.lang
      (nsValOf envC7)) "page_num" = some (.int 1) ∧
    lookupKw (pageKw impC7.user.id dImpC7.id dImpC7.file_name 1 impC7.lang
      (nsValOf envC7)) "version" = none := by
  have h := C7_amended_page_message_fields envC7 impC7 dImpC7 evsImpC7
    (by rfl) rfl rfl
  exact ⟨h.1, (h.2 1).2.2.2.1, (h.2 1).2.2.2.2.2.2.1⟩

/-- Apply arguments with an explicitly provided OCR language "deu" and no
parent folder. -/
def aC8 : ApplyArgs :=
  { user := .user sampleUser, lang := some "deu", name := some "a.pdf" }

/-- Counterexample to C8 as stated: the owner's stored preference is
"eng", the caller explicitly passes lang "deu", yet the created document's
language is "eng" — whenever `parent` is absent, `get_user_properties`
overwrites even an explicitly provided language with the owner's stored
preference. -/
theorem C8_counterexample_lang_overwritten :
    aC8.lang = some "deu" ∧ sampleUser.pref_ocr_lang = "eng" ∧
    (match applyPipeline sampleEnv samplePs aC8 with
     | .ok (d, _) => d.lang
     | .error _ => none) = some "eng" :=
  ⟨rfl, rfl, by rfl⟩

/-- C8 (amended): owner and language resolution happens only when `parent`
is absent; in that case a missing user resolves to the first existing
superuser, a string user resolves by username, and the OCR language is
always set to the resolved owner's stored preference — even when a
language was explicitly provided.  When `parent` is supplied, user and
language pass through exactly as given, with no resolution at all. -/
theorem C8_amended_owner_language (env : Env) (ps : PipeState) (a : ApplyArgs) :
    (∀ p, a.parent = some p →
      resolveStep env ps a = .ok (a.user, a.lang, some p, [])) ∧
    (a.parent = none → ∀ u, resolveUser env.users a.user = some u →
      resolveStep env ps a = .ok (.user u, some u.pref_ocr_lang,
        (if ps.processor == REST_API || ps.processor == LOCAL
            || ps.processor == IMAP
         then some (env.inboxId u.id) else none),
        [.inboxGetOrCreate u.id])) ∧
    (a.user = .pynone →
      resolveUser env.users a.user
        = (env.users.filter (fun x => x.is_superuser)).head?) ∧
    (∀ nm, a.user = .byName nm →
      resolveUser env.users a.user
        = (env.users.filter (fun x => x.username == nm)).head?) := by
  refine ⟨fun p hp => ?_, fun hp u hu => ?_, fun h => ?_, fun nm h => ?_⟩
  · unfold resolveStep
    rw [hp]
  · unfold resolveStep
    rw [hp, hu]
  · rw [h]
    rfl
  · rw [h]
    rfl

/-- Witness for the amended C8: with no parent and no user, the owner
resolves to the superuser `sampleUser` and the language becomes its stored
preference "eng", ignoring the provided "deu". -/
theorem C8_amended_owner_language_witness :
    resolveStep sampleEnv samplePs { user := .pynone, lang := some "deu" }
      = .ok (.user sampleUser, some "eng", none, [.inboxGetOrCreate 9]) ∧
    resolveUser sampleEnv.users .pynone = some sampleUser := by
  have h := C8_amended_owner_language sampleEnv samplePs
    { user := .pynone, lang := some "deu" }
  constructor
  · have h2 := h.2.1 rfl sampleUser (by rfl)
    rw [h2]
    rfl
  · have h3 := h.2.2.1 rfl
    rw [h3]
    rfl

/-- Counterexample to C5 as stated: on the persistence-failure exit path
(document validation fails) a full chain run closes the payload zero
times, not exactly once — no exit-path cleanup exists in the code. -/
theorem C5_counterexample_no_close_on_failure :
    goThroughPipelines [defaultStage envC6] stC6.initK stC6.applyK
      = .error (.validationError, []) ∧
    countClose [] = 0 ∧ (0 : Nat) ≠ 1 :=
  ⟨by rfl, rfl, by decide⟩

/-- C5 (amended): on a successful `apply` the payload is closed exactly
once, immediately after the storage copy of that document succeeds; but on
the error exit paths — validation failure, storage-copy failure, and the
unbound-`doc` path — the payload is not closed at all, and a
`MalformedInit` (`TypeError`) hard stop leaves the chain state, hence the
trace, untouched. -/
theorem C5_amended_temp_close (env : Env) (ps : PipeState) (a : ApplyArgs)
    (d : Doc) (evs : List Event) (e : PyErr) (evs2 : List Event)
    (cls : KwMap → Except PyErr StageInst) (st : ChainSt)
    (rest : List StageSpec) :
    (applyPipeline env ps a = .ok (d, evs) →
      countClose evs = 1 ∧
      ∃ l1 tail,
        evs = l1 ++ [Event.copy ps.path (docUrl d), Event.closePayload] ++ tail ∧
        countClose l1 = 0) ∧
    (applyPipeline env ps a = .error (e, evs2) →
      (e = .validationError ∨ e = .storageIOError ∨ e = .unboundLocal) →
      countClose evs2 = 0) ∧
    (cls st.initK = .error .typeError →
      runStages (.loaded cls :: rest) st = .broke st) := by
  refine ⟨fun h => ?_, fun h he => ?_, fun h => by simp [runStages, h]⟩
  · obtain ⟨user, lang, parent, ev0, v, tv, ev1, tail, hr, hb, hevs, hdisj⟩ :=
      applyPipeline_ok_inv env ps a d evs h
    have hc0 := countClose_of_phaseClean ev0
      (resolveStep_ok_clean env ps a user lang parent ev0 hr)
    have hc1 := countClose_of_phaseClean ev1
      (branchStep_ok_clean env ps a user lang parent (nameOf ps a) d v tv ev1 hb)
    have htail0 : countClose tail = 0 := by
      rcases hdisj with ⟨_, ht⟩ | ⟨_, uid, _, ht⟩ <;> subst ht <;> rfl
    constructor
    · rw [hevs, countClose_append, countClose_append, countClose_append,
          hc0, hc1, htail0]
      rfl
    · refine ⟨ev0 ++ ev1, tail, hevs, ?_⟩
      rw [countClose_append, hc0, hc1]
  · obtain h1 | h2 | h3 := applyPipeline_err_inv env ps a e evs2 h
    · rw [h1.2]
      rfl
    · obtain ⟨user, lang, parent, ev0, ev1, hr, hb, hevs⟩ := h2
      have hc0 := countClose_of_phaseClean ev0
        (resolveStep_ok_clean env ps a user lang parent ev0 hr)
      have hc1 := countClose_of_phaseClean ev1
        (branchStep_err_clean env ps a user lang parent (nameOf ps a) e ev1 hb)
      rw [hevs, countClose_append, hc0, hc1]
    · obtain ⟨user, lang, parent, ev0, d2, v, tv, ev1, hr, hb, hca⟩ := h3
      rcases hca with ⟨hst, hevs⟩ | ⟨hat, hevs⟩
      · have hc0 := countClose_of_phaseClean ev0
          (resolveStep_ok_clean env ps a user lang parent ev0 hr)
        have hc1 := countClose_of_phaseClean ev1
          (branchStep_ok_clean env ps a user lang parent (nameOf ps a) d2 v tv ev1 hb)
        rw [hevs, countClose_append, hc0, hc1]
      · subst hat
        rcases he with h' | h' | h' <;> exact absurd h' (by decide)

/-- Empty chain state for the C5 witness. -/
def stC5 : ChainSt := { initK := [], applyK := [], doc := none, evs := [] }

/-- Witness for the amended C5: the successful scenario-B run closes the
payload exactly once, right after the copy; a validation-failure run
closes it zero times; a `TypeError` stage breaks the chain untouched. -/
theorem C5_amended_temp_close_witness :
    (countClose evsC1 = 1 ∧
      ∃ l1 tail,
        evsC1 = l1 ++ [Event.copy psC1.path (docUrl dC1), Event.closePayload] ++ tail ∧
        countClose l1 = 0) ∧
    countClose [] = 0 ∧
    runStages [StageSpec.loaded (fun _ => .error .typeError)] stC5 = .broke stC5 := by
  refine ⟨?_, ?_, ?_⟩
  · exact (C5_amended_temp_close envC1 psC1 aC1 dC1 evsC1 .validationError []
      (fun _ => .error .typeError) stC5 []).1 (by rfl)
  · exact (C5_amended_temp_close envC6 samplePs aC6 dC1 [] .validationError []
      (fun _ => .error .typeError) stC5 []).2.1 (by rfl) (Or.inl rfl)
  · exact (C5_amended_temp_close envC6 samplePs aC6 dC1 [] .validationError []
      (fun _ => .error .typeError) stC5 []).2.2 rfl
